import Mathlib

/-!
Verification of the irishub asset/coin core: a shallow embedding of
`types` (coin denominations and conversion, `src/unnamed/part_000`) and
`asset` message validation (`src/app/v1/asset/msgs.go`), with theorems
checking the natural-language specification against the code.
-/

set_option maxRecDepth 10000

/-! ## Go string primitives

Helpers mirroring the Go standard-library string functions the source
uses (`strings.ToLower`, `strings.TrimSpace`, `strings.Contains`,
`len`), implemented over the character list of a `String`.  Only the
ASCII behaviour is modelled, which is all the source relies on.
-/

namespace gostr

/-- ASCII whitespace, as trimmed by Go's `strings.TrimSpace`. -/
def isSpaceChar (c : Char) : Bool :=
  c.toNat == 9 || c.toNat == 10 || c.toNat == 11 || c.toNat == 12 ||
  c.toNat == 13 || c.toNat == 32

/-- ASCII lower-casing of one character (Go `unicode.ToLower` on ASCII). -/
def lowerChar (c : Char) : Char :=
  if 65 ≤ c.toNat ∧ c.toNat ≤ 90 then Char.ofNat (c.toNat + 32) else c

/-- Go `strings.ToLower` (ASCII). -/
def toLowerStr (s : String) : String :=
  String.mk (s.data.map lowerChar)

/-- Trim leading and trailing whitespace from a character list. -/
def trimChars (cs : List Char) : List Char :=
  List.rdropWhile isSpaceChar (cs.dropWhile isSpaceChar)

/-- Go `strings.TrimSpace` (ASCII whitespace). -/
def trimSpace (s : String) : String :=
  String.mk (trimChars s.data)

/-- Is `pre` a prefix of `l`? -/
def isPrefixList : List Char → List Char → Bool
  | [], _ => true
  | _ :: _, [] => false
  | a :: as, b :: bs => a == b && isPrefixList as bs

/-- Does `l` contain `sub` as a contiguous substring (Go `strings.Contains`)? -/
def containsList (l sub : List Char) : Bool :=
  isPrefixList sub l ||
    match l with
    | [] => false
    | _ :: t => containsList t sub

/-- Go `strings.Contains(s, sub)`. -/
def strContains (s sub : String) : Bool :=
  containsList s.data sub.data

/-- Number of UTF-8 bytes of one character; Go `len` on strings counts bytes. -/
def charSize (c : Char) : Nat :=
  if c.toNat < 0x80 then 1
  else if c.toNat < 0x800 then 2
  else if c.toNat < 0x10000 then 3
  else 4

/-- Go `len(s)` for a string: its UTF-8 byte length. -/
def byteLen (s : String) : Nat :=
  s.data.foldl (fun n c => n + charSize c) 0

end gostr

/-! ## The `sdk` amount layer

Modelled from the spec: `sdk.ParseCoin` and the exact decimal
arithmetic/formatting of `sdk.Dec` live in the cosmos-sdk fork and are
not under `src/`.  The spec fixes their contract: amounts are texts
`<decimal-digits>[.<decimal-digits>]<denom>`, conversion uses
unbounded-precision exact rational arithmetic, and results are printed
as canonical decimals (the concrete cases "1iris" ↔
"1000000000000000000iris-atto" show trailing zeros are not printed).
A decimal amount is represented exactly as `num / 10 ^ scale`.
-/

namespace sdk

/-- Numeric value of a decimal digit character. -/
def digitVal (c : Char) : Nat := c.toNat - 48

/-- Value of a big-endian list of decimal digit characters. -/
def digitsVal (ds : List Char) : Nat :=
  ds.foldl (fun a c => a * 10 + digitVal c) 0

/-- Modelled from the spec: split `<decimal-digits>[.<decimal-digits>]<denom>`
into the exact amount `num / 10 ^ scale` and the remaining denomination
characters; `none` on malformed input. -/
def parseAmountChars (cs : List Char) : Option (Nat × Nat × List Char) :=
  let ip := cs.takeWhile Char.isDigit
  let r1 := cs.dropWhile Char.isDigit
  if ip.isEmpty then none
  else
    match r1 with
    | [] => none
    | c :: r2 =>
      if c = '.' then
        let fp := r2.takeWhile Char.isDigit
        let r3 := r2.dropWhile Char.isDigit
        if fp.isEmpty ∨ r3.isEmpty then none
        else some (digitsVal ip * 10 ^ fp.length + digitsVal fp, fp.length, r3)
      else some (digitsVal ip, 0, c :: r2)

/-- An exact nonnegative decimal amount `num / 10 ^ scale`. -/
structure DecAmount where
  num : Nat
  scale : Nat
deriving DecidableEq, Repr

/-- `sdk.Coin`: a denomination together with an exact amount. -/
structure Coin where
  Denom : String
  Amount : DecAmount
deriving DecidableEq, Repr

/-- Modelled from the spec: `sdk.ParseCoin`. -/
def ParseCoin (s : String) : Except String Coin :=
  match parseAmountChars s.data with
  | some (n, k, d) => .ok ⟨String.mk d, ⟨n, k⟩⟩
  | none => .error "invalid coin expression"

/-- Remove factors of ten shared by `num` and `10 ^ scale`:
`stripTrailingZeros n k` represents the same value `n / 10 ^ k` with
trailing fractional zeros removed. -/
def stripTrailingZeros : Nat → Nat → Nat × Nat
  | n, 0 => (n, 0)
  | n, k+1 => if n % 10 == 0 then stripTrailingZeros (n / 10) k else (n, k + 1)

/-- Big-endian decimal digit characters of `n`, with explicit fuel
(`fuel > n` suffices). -/
def natDigitsAux : Nat → Nat → List Char
  | 0, _ => []
  | fuel+1, n =>
    if n < 10 then [Nat.digitChar n]
    else natDigitsAux fuel (n / 10) ++ [Nat.digitChar (n % 10)]

/-- Big-endian decimal digit characters of `n`. -/
def natDigits (n : Nat) : List Char := natDigitsAux (n + 1) n

/-- The fractional digits of `m / 10 ^ k`, zero-padded on the left to
width `k`. -/
def fracDigits (m k : Nat) : List Char :=
  List.replicate (k - (natDigits m).length) '0' ++ natDigits m

/-- Modelled from the spec: canonical decimal rendering of the exact
value `n / 10 ^ k` (integer digits, then a fractional part without
trailing zeros, omitted entirely when zero). -/
def formatDecChars (n k : Nat) : List Char :=
  let p := stripTrailingZeros n k
  if p.2 == 0 then natDigits p.1
  else natDigits (p.1 / 10 ^ p.2) ++ '.' :: fracDigits (p.1 % 10 ^ p.2) p.2

/-- String form of `formatDecChars`. -/
def formatDec (n k : Nat) : String := String.mk (formatDecChars n k)

/-- A denomination character list that cannot be confused with the tail
of a decimal amount: nonempty, and its first character is neither a
digit nor the decimal point.  All registered iris denominations satisfy
this. -/
def denomLeadOk : List Char → Bool
  | [] => false
  | c :: _ => !c.isDigit && c != '.'

end sdk

/-! ## The `types` coin module (`src/unnamed/part_000`) -/

namespace types

def Milli : String := "milli"

def MilliScale : Nat := 3

def Micro : String := "micro"

def MicroScale : Nat := 6

def Nano : String := "nano"

def NanoScale : Nat := 9

def Pico : String := "pico"

def PicoScale : Nat := 12

def Femto : String := "femto"

def FemtoScale : Nat := 15

def Atto : String := "atto"

def AttoScale : Nat := 18

def MinDenomSuffix : String := "-min"

/-- Modelled from the spec: the native coin family name constant `Iris`
is declared outside the shown files; per the spec and glossary the
native denominations are "iris", "iris-atto", …. -/
def Iris : String := "iris"

/-- Modelled from the spec: the fixed literal minimal denomination of the
native coin. -/
def IrisAtto : String := "iris-atto"

/-- One denomination of a coin family (`Unit` in the source; `Decimal`
is a `uint8` there, modelled as `Nat`). -/
structure Unit where
  Denom : String
  Decimal : Nat
deriving DecidableEq, Repr

/-- `Unit.GetScaleFactor`: `10 ^ Decimal`. -/
def Unit.GetScaleFactor (u : Unit) : Nat := 10 ^ u.Decimal

/-- `CoinType` from the source. -/
structure CoinType where
  Name : String
  MinUnit : Unit
  Units : List Unit
  Desc : String
deriving DecidableEq, Repr

/-- `CoinType.GetUnit`: first unit whose denomination matches
case-insensitively; error when absent. -/
def CoinType.GetUnit (ct : CoinType) (denom : String) : Except String Unit :=
  match ct.Units.find? (fun u => gostr.toLowerStr denom == gostr.toLowerStr u.Denom) with
  | some u => .ok u
  | none => .error ("unit (%s) not found" ++ denom)

/-- `CoinType.Convert`: parse the amount, resolve both units, return the
input unchanged when the source unit's denomination equals `destDenom`,
otherwise rescale exactly by `10 ^ dest.Decimal / 10 ^ src.Decimal` and
print with the destination denomination (arithmetic and printing via the
spec-modelled `sdk` layer). -/
def CoinType.Convert (ct : CoinType) (srcCoinStr destDenom : String) : Except String String :=
  match sdk.ParseCoin srcCoinStr with
  | .error e => .error e
  | .ok coin =>
    match ct.GetUnit destDenom with
    | .error _ => .error ("destination unit (%s) not defined" ++ destDenom)
    | .ok destUnit =>
      match ct.GetUnit coin.Denom with
      | .error _ => .error ("source unit (%s) not defined" ++ coin.Denom)
      | .ok srcUnit =>
        if srcUnit.Denom == destDenom then .ok srcCoinStr
        else .ok (sdk.formatDec (coin.Amount.num * destUnit.GetScaleFactor)
                    (coin.Amount.scale + srcUnit.Decimal) ++ destUnit.Denom)

/-- `CoinType.ConvertToMinDenomCoin`, exactly as written in the source:
convert to the minimal denomination, then return the error
"convert error" when that conversion SUCCEEDED (`if err == nil`), and
parse the (empty) result string when it failed. -/
def CoinType.ConvertToMinDenomCoin (ct : CoinType) (srcCoinStr : String) : Except String sdk.Coin :=
  match ct.Convert srcCoinStr ct.MinUnit.Denom with
  | .ok _ => .error "convert error"
  | .error _ => sdk.ParseCoin ""

/-- `NewIrisCoinType`: seven units (base, milli, …, atto) with the atto
unit as `MinUnit` (the source's `units[6]`). -/
def NewIrisCoinType : CoinType :=
  let u0 : Unit := ⟨Iris, 0⟩
  let u1 : Unit := ⟨Iris ++ "-" ++ Milli, MilliScale⟩
  let u2 : Unit := ⟨Iris ++ "-" ++ Micro, MicroScale⟩
  let u3 : Unit := ⟨Iris ++ "-" ++ Nano, NanoScale⟩
  let u4 : Unit := ⟨Iris ++ "-" ++ Pico, PicoScale⟩
  let u5 : Unit := ⟨Iris ++ "-" ++ Femto, FemtoScale⟩
  let u6 : Unit := ⟨Iris ++ "-" ++ Atto, AttoScale⟩
  { Name := Iris
    MinUnit := u6
    Units := [u0, u1, u2, u3, u4, u5, u6]
    Desc := "IRIS Network" }

/-- The process-wide `IrisCoinType` value. -/
def IrisCoinType : CoinType := NewIrisCoinType

end types

/-! ## The `asset` message module (`src/app/v1/asset/msgs.go`) -/

namespace asset

def MsgRoute : String := "asset"

def MsgTypeIssueToken : String := "issue_token"

def MaximumAssetMaxSupply : Nat := 1000000000000

def MaximumAssetInitSupply : Nat := 100000000000

def MaximumAssetDecimal : Nat := 18

def MinimumAssetSymbolSize : Nat := 3

def MaximumAssetSymbolSize : Nat := 8

def MinimumAssetSymbolMinAliasSize : Nat := 3

def MaximumAssetSymbolMinAliasSize : Nat := 10

def MaximumAssetNameSize : Nat := 32

def MinimumGatewayMonikerSize : Nat := 3

def MaximumGatewayMonikerSize : Nat := 8

def MaximumGatewayDetailsSize : Nat := 280

def MaximumGatewayWebsiteSize : Nat := 128

/-- The regex `^[a-zA-Z]+$` as a predicate. -/
def IsAlpha (s : String) : Bool :=
  !s.data.isEmpty && s.data.all Char.isAlpha

/-- The regex `^[a-zA-Z0-9]+$` as a predicate. -/
def IsAlphaNumeric (s : String) : Bool :=
  !s.data.isEmpty && s.data.all Char.isAlphanum

/-- The regex `^[a-zA-Z].*` as a predicate (`MatchString`: the string
starts with a letter; the rest is unconstrained). -/
def IsBeginWithAlpha (s : String) : Bool :=
  match s.data with
  | c :: _ => c.isAlpha
  | [] => false

/-- Modelled from the spec: `sdk.NativeTokenName`, the ledger's
native-coin symbol, declared outside the shown files. -/
def NativeTokenName : String := types.Iris

/-- Modelled from the spec: `sdk.NativeTokenMinDenom`, the ledger's
minimal native denomination. -/
def NativeTokenMinDenom : String := types.IrisAtto

/-- `sdk.AccAddress`: a byte string. -/
abbrev AccAddress := List Nat

/-- Modelled from the spec: `AssetSource` is an integer code whose
recognized values are NATIVE, EXTERNAL and GATEWAY; the source's
`switch` has a `default` branch, so unrecognized codes are possible
values. -/
inductive AssetSource
  | NATIVE
  | EXTERNAL
  | GATEWAY
  | UNRECOGNIZED (code : Nat)
deriving DecidableEq, Repr

/-- `AssetFamily` is an integer code in the source. -/
abbrev AssetFamily := Nat

/-- Modelled from the spec: `AssetFamilyToStringMap`, the fixed closed
set of known asset families (declared outside the shown files); the
claims do not depend on its exact elements. -/
def AssetFamilyToStringMap : List (AssetFamily × String) :=
  [(0, "fungible"), (1, "non-fungible")]

/-- The error kinds returned by validation.  The source wraps each in a
constructor carrying a human-readable detail string; the detail text is
dropped here, the kind is what the claims are about. -/
inductive MsgError
  | NilAssetOwner
  | InvalidAssetSource
  | InvalidMoniker
  | InvalidAssetFamily
  | InvalidAssetName
  | InvalidAssetSymbol
  | InvalidAssetSymbolAtSource
  | InvalidAssetSymbolMinAlias
  | InvalidAssetInitSupply
  | InvalidAssetMaxSupply
  | InvalidAssetDecimal
  | InvalidAddress
  | InvalidDetails
  | InvalidWebsite
  | IncorrectFeeDenom
  | NegativeFee
  | NoUpdatesProvided
  | InvalidToAddress
deriving DecidableEq, Repr

/-- `sdk.Coin` as used for fees here: a denomination and an integer
amount. -/
structure Coin where
  Denom : String
  Amount : Int
deriving DecidableEq, Repr

/-- `sdk.Coin.IsNotNegative`. -/
def Coin.IsNotNegative (c : Coin) : Bool := decide (0 ≤ c.Amount)

/-- `MsgIssueToken` (uint64/uint8 numeric fields modelled as `Nat`). -/
structure MsgIssueToken where
  Family : AssetFamily
  Source : AssetSource
  Gateway : String
  Symbol : String
  SymbolAtSource : String
  Name : String
  Decimal : Nat
  SymbolMinAlias : String
  InitialSupply : Nat
  MaxSupply : Nat
  Mintable : Bool
  Owner : AccAddress
  Fee : List Coin
deriving DecidableEq, Repr

/-- The normalization statements at the top of
`MsgIssueToken.ValidateBasic`: trim and lower-case gateway, symbol,
symbolAtSource, symbolMinAlias; trim name. -/
def normalizeIssueToken (m : MsgIssueToken) : MsgIssueToken :=
  { m with
    Gateway := gostr.toLowerStr (gostr.trimSpace m.Gateway)
    Symbol := gostr.toLowerStr (gostr.trimSpace m.Symbol)
    SymbolAtSource := gostr.toLowerStr (gostr.trimSpace m.SymbolAtSource)
    SymbolMinAlias := gostr.toLowerStr (gostr.trimSpace m.SymbolMinAlias)
    Name := gostr.trimSpace m.Name }

/-- The max-supply default fill in `MsgIssueToken.ValidateBasic`:
when `MaxSupply == 0`, substitute `MaximumAssetMaxSupply` if mintable,
else the initial supply. -/
def fillMaxSupply (m : MsgIssueToken) : MsgIssueToken :=
  if m.MaxSupply = 0 then
    if m.Mintable then { m with MaxSupply := MaximumAssetMaxSupply }
    else { m with MaxSupply := m.InitialSupply }
  else m

/-- The checks of `MsgIssueToken.ValidateBasic` that follow the
`switch` on the source: family, name, symbol, symbolAtSource,
symbolMinAlias, initial supply, max supply, decimal, in source order. -/
def issueTokenCommonChecks (msg : MsgIssueToken) : Option MsgError :=
  if ¬ (AssetFamilyToStringMap.find? (fun p => p.1 == msg.Family)).isSome then
    some .InvalidAssetFamily
  else if gostr.byteLen msg.Name = 0 ∨ gostr.byteLen msg.Name > MaximumAssetNameSize then
    some .InvalidAssetName
  else if gostr.byteLen msg.Symbol < MinimumAssetSymbolSize ∨
      gostr.byteLen msg.Symbol > MaximumAssetSymbolSize ∨
      ¬ IsBeginWithAlpha msg.Symbol ∨ ¬ IsAlphaNumeric msg.Symbol then
    some .InvalidAssetSymbol
  else if gostr.strContains (gostr.toLowerStr msg.Symbol) NativeTokenName then
    some .InvalidAssetSymbol
  else if gostr.byteLen msg.SymbolAtSource > 0 ∧
      (gostr.byteLen msg.SymbolAtSource < MinimumAssetSymbolSize ∨
       gostr.byteLen msg.SymbolAtSource > MaximumAssetSymbolSize ∨
       ¬ IsAlphaNumeric msg.SymbolAtSource) then
    some .InvalidAssetSymbolAtSource
  else if (gostr.byteLen msg.SymbolMinAlias > 0 ∧
      (gostr.byteLen msg.SymbolMinAlias < MinimumAssetSymbolMinAliasSize ∨
       gostr.byteLen msg.SymbolMinAlias > MaximumAssetSymbolMinAliasSize ∨
       ¬ IsAlphaNumeric msg.SymbolMinAlias)) ∨ ¬ IsBeginWithAlpha msg.Symbol then
    some .InvalidAssetSymbolMinAlias
  else if msg.InitialSupply > MaximumAssetInitSupply then
    some .InvalidAssetInitSupply
  else if msg.MaxSupply < msg.InitialSupply ∨ msg.MaxSupply > MaximumAssetMaxSupply then
    some .InvalidAssetMaxSupply
  else if msg.Decimal > MaximumAssetDecimal then
    some .InvalidAssetDecimal
  else none

/-- `MsgIssueToken.ValidateBasic`: normalize (on the local copy — the Go
receiver is a value), default-fill the max supply, dispatch on the
source, then run the common checks; for NATIVE the symbolAtSource is
forcibly cleared. -/
def MsgIssueToken.ValidateBasic (msg0 : MsgIssueToken) : Option MsgError :=
  let msg := fillMaxSupply (normalizeIssueToken msg0)
  match msg.Source with
  | .NATIVE =>
    if msg.Owner.isEmpty then some .NilAssetOwner
    else issueTokenCommonChecks { msg with SymbolAtSource := "" }
  | .EXTERNAL => some .InvalidAssetSource
  | .GATEWAY =>
    if gostr.byteLen msg.Gateway < MinimumGatewayMonikerSize ∨
        gostr.byteLen msg.Gateway > MaximumGatewayMonikerSize then
      some .InvalidMoniker
    else issueTokenCommonChecks msg
  | .UNRECOGNIZED _ => some .InvalidAssetSource

/-- `ValidateMoniker`: size in [3,8], letters only, must not contain the
native token name (case-insensitively). -/
def ValidateMoniker (moniker : String) : Option MsgError :=
  if gostr.byteLen moniker < MinimumGatewayMonikerSize ∨
      gostr.byteLen moniker > MaximumGatewayMonikerSize then
    some .InvalidMoniker
  else if ¬ IsAlpha moniker then
    some .InvalidMoniker
  else if gostr.strContains (gostr.toLowerStr moniker) NativeTokenName then
    some .InvalidMoniker
  else none

/-- `MsgCreateGateway`. -/
structure MsgCreateGateway where
  Owner : AccAddress
  Moniker : String
  Identity : String
  Details : String
  Website : String
  Fee : Coin
deriving DecidableEq, Repr

/-- `MsgCreateGateway.ValidateBasic`.  Note: the source returns
`ErrInvalidDetails` for an over-long website as well. -/
def MsgCreateGateway.ValidateBasic (msg : MsgCreateGateway) : Option MsgError :=
  if msg.Owner.length = 0 then some .InvalidAddress
  else match ValidateMoniker msg.Moniker with
  | some e => some e
  | none =>
    if gostr.byteLen msg.Details > MaximumGatewayDetailsSize then some .InvalidDetails
    else if gostr.byteLen msg.Website > MaximumGatewayWebsiteSize then some .InvalidDetails
    else if msg.Fee.Denom ≠ NativeTokenMinDenom then some .IncorrectFeeDenom
    else if ¬ msg.Fee.IsNotNegative then some .NegativeFee
    else none

/-- `MsgEditGateway`: the three optional fields are Go pointers
(`nil` = absent). -/
structure MsgEditGateway where
  Owner : AccAddress
  Moniker : String
  Identity : Option String
  Details : Option String
  Website : Option String
deriving DecidableEq, Repr

/-- `msg.Details != nil && len(*msg.Details) > n`. -/
def optLenGT (o : Option String) (n : Nat) : Bool :=
  match o with
  | some s => decide (gostr.byteLen s > n)
  | none => false

/-- `MsgEditGateway.ValidateBasic`. -/
def MsgEditGateway.ValidateBasic (msg : MsgEditGateway) : Option MsgError :=
  if msg.Owner.length = 0 then some .InvalidAddress
  else match ValidateMoniker msg.Moniker with
  | some e => some e
  | none =>
    if optLenGT msg.Details MaximumGatewayDetailsSize then some .InvalidDetails
    else if optLenGT msg.Website MaximumGatewayWebsiteSize then some .InvalidWebsite
    else if msg.Identity = none ∧ msg.Details = none ∧ msg.Website = none then
      some .NoUpdatesProvided
    else none

/-- Modelled from the spec: the bech32 rendering of an account address
is done by the external codec, outside the shown core; an injective
placeholder rendering is used, the claims depend only on whether the
surrounding message rendering is defined at all. -/
def accAddressText (a : AccAddress) : String := toString a

/-- The Go method `MsgEditGateway.String`: it dereferences the three
optional-field pointers unconditionally (`*msg.Identity` etc.), so it
panics when any of them is nil; `none` models that panic. -/
def MsgEditGateway.StringRepr (msg : MsgEditGateway) : Option String :=
  match msg.Identity, msg.Details, msg.Website with
  | some i, some d, some w =>
    some ("MsgEditGateway:\n  Owner:             " ++ accAddressText msg.Owner ++
      "\n  Moniker:           " ++ msg.Moniker ++
      "\n  Identity:          " ++ i ++
      "\n  Details:           " ++ d ++
      "\n  Website:           " ++ w)
  | _, _, _ => none

/-- `MsgTransferGatewayOwner`. -/
structure MsgTransferGatewayOwner where
  Owner : AccAddress
  Moniker : String
  To : AccAddress
deriving DecidableEq, Repr

/-- `MsgTransferGatewayOwner.ValidateBasic`: empty owner, then empty
`to`, then self-transfer, then the moniker. -/
def MsgTransferGatewayOwner.ValidateBasic (msg : MsgTransferGatewayOwner) : Option MsgError :=
  if msg.Owner.length = 0 then some .InvalidAddress
  else if msg.To.length = 0 then some .InvalidAddress
  else if msg.To = msg.Owner then some .InvalidToAddress
  else ValidateMoniker msg.Moniker

end asset

/-! ## Concrete fixtures used by witnesses and counterexamples -/

/-- A NATIVE issue-token request whose non-supply fields are all valid:
non-mintable, `maxSupply = 0`, `initialSupply = 500`. -/
def issueNonMintable500 : asset.MsgIssueToken :=
  { Family := 0, Source := .NATIVE, Gateway := "", Symbol := "abc", SymbolAtSource := "",
    Name := "Test Token", Decimal := 6, SymbolMinAlias := "", InitialSupply := 500,
    MaxSupply := 0, Mintable := false, Owner := [1], Fee := [] }

/-- The same request, mintable, with `maxSupply = 0`. -/
def issueMintable0 : asset.MsgIssueToken :=
  { issueNonMintable500 with Mintable := true }

/-- An issue-token request whose min-denom alias begins with a digit. -/
def issueAliasDigit : asset.MsgIssueToken :=
  { issueNonMintable500 with SymbolMinAlias := "123" }

/-- A create-gateway request whose moniker is valid only after trimming
and lower-casing. -/
def createGatewayRawMoniker : asset.MsgCreateGateway :=
  { Owner := [1], Moniker := " ABC ", Identity := "", Details := "", Website := "",
    Fee := { Denom := "iris-atto", Amount := 5 } }

/-- An edit-gateway request with only the identity field present. -/
def editGatewayIdentityOnly : asset.MsgEditGateway :=
  { Owner := [1], Moniker := "abc", Identity := some "id", Details := none, Website := none }

/-! ## Claim theorems -/

/-- Claim C1 (code bug).  The claim says `ConvertToMinDenomCoin` returns
the converted coin without error whenever the inner `Convert` succeeds.
The source inverts the error test (`if err == nil` instead of
`err != nil`), so on the input "1iris" — where `Convert` to the minimal
denomination succeeds with "1000000000000000000iris-atto" —
`ConvertToMinDenomCoin` returns the error "convert error". -/
theorem C1_convertToMinDenomCoin_inverted_error :
    types.IrisCoinType.ConvertToMinDenomCoin "1iris" = .error "convert error" ∧
    types.IrisCoinType.Convert "1iris" types.IrisCoinType.MinUnit.Denom =
      .ok "1000000000000000000iris-atto" :=
  ⟨rfl, rfl⟩

/-- Claim C2.  On the process-wide iris coin type, "1iris" converts to
"1000000000000000000iris-atto", and that result converts back to
"1iris". -/
theorem C2_convert_one_iris_both_ways :
    types.IrisCoinType.Convert "1iris" "iris-atto" = .ok "1000000000000000000iris-atto" ∧
    types.IrisCoinType.Convert "1000000000000000000iris-atto" "iris" = .ok "1iris" :=
  ⟨rfl, rfl⟩

/-- Claim C3, counterexample.  Round-tripping does not reproduce the
amount string byte for byte: "1.50iris" goes to "1500iris-milli" and
comes back as "1.5iris" — the same exact value, but not the same
string. -/
theorem C3_counterexample_roundtrip_not_verbatim :
    types.IrisCoinType.Convert "1.50iris" "iris-milli" = .ok "1500iris-milli" ∧
    types.IrisCoinType.Convert "1500iris-milli" "iris" = .ok "1.5iris" ∧
    "1.5iris" ≠ "1.50iris" :=
  ⟨rfl, rfl, by decide⟩

/-- Claim C4, counterexample.  "IRIS" resolves (case-insensitively) to
the same registered unit as the source denomination of "1.50iris", yet
`Convert` does not return the input unchanged: the identity
short-circuit compares `srcUnit.Denom` with `destDenom` byte for byte,
so a case-different `destDenom` takes the arithmetic path and the
output is reformatted. -/
theorem C4_counterexample_case_differing_dest :
    types.IrisCoinType.GetUnit "IRIS" = types.IrisCoinType.GetUnit "iris" ∧
    types.IrisCoinType.Convert "1.50iris" "IRIS" = .ok "1.5iris" ∧
    "1.5iris" ≠ "1.50iris" :=
  ⟨rfl, rfl, by decide⟩

/-- Claim C4, amended.  `Convert` returns its input unchanged exactly
when `destDenom` equals the source unit's registered denomination byte
for byte (after a successful parse and dest-unit lookup); a merely
case-insensitively equal `destDenom` instead goes through the
arithmetic path. -/
theorem C4_convert_identity_shortcircuit (ct : types.CoinType) (s destDenom : String)
    (coin : sdk.Coin) (hp : sdk.ParseCoin s = .ok coin)
    (du : types.Unit) (hdu : ct.GetUnit destDenom = .ok du)
    (su : types.Unit) (hsu : ct.GetUnit coin.Denom = .ok su)
    (heq : su.Denom = destDenom) :
    ct.Convert s destDenom = .ok s := by
  simp [types.CoinType.Convert, hp, hdu, hsu, heq]

/-- Witness for `C4_convert_identity_shortcircuit`: even a non-canonical
amount string is returned unchanged when the destination denomination
matches the source unit byte for byte. -/
theorem C4_convert_identity_shortcircuit_witness :
    types.IrisCoinType.Convert "1.50iris" "iris" = .ok "1.50iris" :=
  C4_convert_identity_shortcircuit types.IrisCoinType "1.50iris" "iris"
    ⟨"iris", ⟨150, 2⟩⟩ rfl ⟨"iris", 0⟩ rfl ⟨"iris", 0⟩ rfl rfl

/-- Claim C5, counterexample.  The claim says every request variant is
validated against trimmed and lower-cased field values.  Create-gateway
validation checks the raw moniker: " ABC " is rejected as an invalid
moniker although its trimmed, lower-cased form "abc" validates cleanly
(so no normalized form is observed by the caller either). -/
theorem C5_counterexample_gateway_moniker_not_normalized :
    asset.MsgCreateGateway.ValidateBasic createGatewayRawMoniker =
      some .InvalidMoniker ∧
    gostr.toLowerStr (gostr.trimSpace createGatewayRawMoniker.Moniker) = "abc" ∧
    asset.MsgCreateGateway.ValidateBasic
      { createGatewayRawMoniker with Moniker := "abc" } = none :=
  ⟨rfl, rfl, rfl⟩

/-- Claim C8, counterexample.  With the empty address as both owner and
recipient, validation rejects with `InvalidAddress` (the owner-empty
check fires first), not `InvalidToAddress`. -/
theorem C8_counterexample_empty_address :
    asset.MsgTransferGatewayOwner.ValidateBasic ⟨[], "abc", []⟩ =
      some .InvalidAddress ∧
    asset.MsgError.InvalidAddress ≠ asset.MsgError.InvalidToAddress :=
  ⟨rfl, by decide⟩

/-- Claim C8, amended.  For every non-empty address `A` and every
moniker string, transferring a gateway from `A` to `A` is rejected with
`InvalidToAddress`, regardless of the moniker's validity. -/
theorem C8_self_transfer_rejected (A : asset.AccAddress) (m : String) (hA : A ≠ []) :
    asset.MsgTransferGatewayOwner.ValidateBasic ⟨A, m, A⟩ =
      some .InvalidToAddress := by
  unfold asset.MsgTransferGatewayOwner.ValidateBasic
  rw [if_neg (by simpa using hA), if_neg (by simpa using hA), if_pos rfl]

/-- Witness for `C8_self_transfer_rejected`, with an invalid moniker. -/
theorem C8_self_transfer_rejected_witness :
    asset.MsgTransferGatewayOwner.ValidateBasic ⟨[1], "x$", [1]⟩ =
      some .InvalidToAddress :=
  C8_self_transfer_rejected [1] "x$" (by decide)

/-- Claim C9.  The iris coin type has exactly seven units with decimal
exponents 0, 3, 6, 9, 12, 15, 18; its `MinUnit` is the exponent-18
atto unit and is one of the units; and the unit denominations are
pairwise distinct even case-insensitively. -/
theorem C9_iris_coin_type_invariants :
    types.NewIrisCoinType.Units.length = 7 ∧
    types.NewIrisCoinType.Units.map types.Unit.Decimal = [0, 3, 6, 9, 12, 15, 18] ∧
    types.NewIrisCoinType.MinUnit.Decimal = 18 ∧
    types.NewIrisCoinType.MinUnit.Denom = "iris-atto" ∧
    types.NewIrisCoinType.MinUnit ∈ types.NewIrisCoinType.Units ∧
    (types.NewIrisCoinType.Units.map (fun u => gostr.toLowerStr u.Denom)).Nodup := by
  refine ⟨rfl, rfl, rfl, rfl, by decide, by decide⟩

/-- Claim C10.  The Go rendering method of `MsgEditGateway`
unconditionally dereferences the three optional fields, so it is
defined exactly when all three are present — while validation accepts
requests with absent fields, e.g. one carrying only an identity, on
which the rendering is undefined (a nil-pointer panic). -/
theorem C10_editGateway_string_partial :
    (∀ msg : asset.MsgEditGateway,
      (asset.MsgEditGateway.StringRepr msg).isSome ↔
        (msg.Identity.isSome ∧ msg.Details.isSome ∧ msg.Website.isSome)) ∧
    asset.MsgEditGateway.ValidateBasic editGatewayIdentityOnly = none ∧
    asset.MsgEditGateway.StringRepr editGatewayIdentityOnly = none := by
  refine ⟨?_, rfl, rfl⟩
  intro msg
  cases hI : msg.Identity <;> cases hD : msg.Details <;> cases hW : msg.Website <;>
    simp [asset.MsgEditGateway.StringRepr, hI, hD, hW]

/-! ## Helper lemmas: Go string normalization -/

namespace gostr

theorem data_mk (cs : List Char) : (String.mk cs).data = cs := rfl

theorem toNat_ofNat_of_small {n : Nat} (h : n < 55296) : (Char.ofNat n).toNat = n := by
  rw [Char.ofNat, dif_pos (Or.inl h)]
  rfl

theorem lowerChar_eq_self (c : Char) (h : ¬ (65 ≤ c.toNat ∧ c.toNat ≤ 90)) :
    lowerChar c = c := by
  unfold lowerChar
  rw [if_neg h]

theorem lowerChar_toNat_upper (c : Char) (h65 : 65 ≤ c.toNat) (h90 : c.toNat ≤ 90) :
    (lowerChar c).toNat = c.toNat + 32 := by
  unfold lowerChar
  rw [if_pos ⟨h65, h90⟩, toNat_ofNat_of_small (by omega)]

theorem lowerChar_idem (c : Char) : lowerChar (lowerChar c) = lowerChar c := by
  by_cases h : 65 ≤ c.toNat ∧ c.toNat ≤ 90
  · have ht := lowerChar_toNat_upper c h.1 h.2
    exact lowerChar_eq_self _ (by omega)
  · rw [lowerChar_eq_self c h]
    exact lowerChar_eq_self c h

theorem isSpace_lowerChar (c : Char) : isSpaceChar (lowerChar c) = isSpaceChar c := by
  by_cases h : 65 ≤ c.toNat ∧ c.toNat ≤ 90
  · have ht := lowerChar_toNat_upper c h.1 h.2
    have hl : isSpaceChar (lowerChar c) = false := by
      simp only [isSpaceChar, Bool.or_eq_false_iff, beq_eq_false_iff_ne, ne_eq]
      omega
    have hr : isSpaceChar c = false := by
      simp only [isSpaceChar, Bool.or_eq_false_iff, beq_eq_false_iff_ne, ne_eq]
      omega
    rw [hl, hr]
  · rw [lowerChar_eq_self c h]

theorem isSpace_comp_lower : isSpaceChar ∘ lowerChar = isSpaceChar :=
  funext isSpace_lowerChar

theorem dropWhile_rdropWhile_self (p : Char → Bool) (m : List Char)
    (hm : m.dropWhile p = m) :
    (m.rdropWhile p).dropWhile p = m.rdropWhile p := by
  obtain ⟨t, ht⟩ := List.rdropWhile_prefix p m
  rcases hr : List.rdropWhile p m with _ | ⟨a, r⟩
  · simp
  · rw [hr] at ht
    have hm' := hm
    rw [← ht, List.cons_append] at hm'
    have hpa : p a = false := by
      by_contra hpa
      simp only [Bool.not_eq_false] at hpa
      rw [List.dropWhile_cons_of_pos hpa] at hm'
      have hlen := congrArg List.length hm'
      have hle := (List.dropWhile_suffix (l := r ++ t) p).length_le
      simp only [List.length_cons] at hlen
      omega
    rw [List.dropWhile_cons_of_neg (by simp [hpa])]

theorem trimChars_idem (cs : List Char) : trimChars (trimChars cs) = trimChars cs := by
  unfold trimChars
  rw [dropWhile_rdropWhile_self _ _ (List.dropWhile_idempotent _ _),
    List.rdropWhile_idempotent]

theorem rdropWhile_map_lower (l : List Char) :
    (l.map lowerChar).rdropWhile isSpaceChar =
      (l.rdropWhile isSpaceChar).map lowerChar := by
  unfold List.rdropWhile
  rw [← List.map_reverse, List.dropWhile_map, isSpace_comp_lower, List.map_reverse]

theorem trimChars_map_lower (cs : List Char) :
    trimChars (cs.map lowerChar) = (trimChars cs).map lowerChar := by
  unfold trimChars
  rw [List.dropWhile_map, isSpace_comp_lower, rdropWhile_map_lower]

theorem trimSpace_idem (s : String) : trimSpace (trimSpace s) = trimSpace s := by
  unfold trimSpace
  rw [data_mk, trimChars_idem]

theorem lower_trim_idem (s : String) :
    toLowerStr (trimSpace (toLowerStr (trimSpace s))) = toLowerStr (trimSpace s) := by
  unfold toLowerStr trimSpace
  rw [data_mk, data_mk, data_mk, trimChars_map_lower, trimChars_idem, List.map_map,
    show lowerChar ∘ lowerChar = lowerChar from funext fun c => lowerChar_idem c]

end gostr

theorem normalizeIssueToken_idem (m : asset.MsgIssueToken) :
    asset.normalizeIssueToken (asset.normalizeIssueToken m) = asset.normalizeIssueToken m := by
  simp [asset.normalizeIssueToken, gostr.lower_trim_idem, gostr.trimSpace_idem]

/-- Claim C5, amended: issue-token validation evaluates its checks on
the trimmed, lower-cased field values — validating an already-normalized
request gives the same verdict as validating the raw request. -/
theorem C5_issue_validation_normalization_invariant (msg : asset.MsgIssueToken) :
    asset.MsgIssueToken.ValidateBasic (asset.normalizeIssueToken msg) =
      asset.MsgIssueToken.ValidateBasic msg := by
  unfold asset.MsgIssueToken.ValidateBasic
  rw [normalizeIssueToken_idem]

/-- Claim C6.  The issue-token max-supply default fill: with
`maxSupply = 0`, a mintable request is validated as if `maxSupply` were
`MaximumAssetMaxSupply`, a non-mintable one as if it were
`initialSupply` — i.e. the substitution precedes the range check — and
the concrete non-mintable request with `initialSupply = 500`,
`maxSupply = 0` is accepted. -/
theorem C6_maxSupply_default_fill :
    (∀ msg : asset.MsgIssueToken, msg.MaxSupply = 0 → msg.Mintable = true →
      asset.MsgIssueToken.ValidateBasic msg =
        asset.MsgIssueToken.ValidateBasic
          { msg with MaxSupply := asset.MaximumAssetMaxSupply }) ∧
    (∀ msg : asset.MsgIssueToken, msg.MaxSupply = 0 → msg.Mintable = false →
      asset.MsgIssueToken.ValidateBasic msg =
        asset.MsgIssueToken.ValidateBasic { msg with MaxSupply := msg.InitialSupply }) ∧
    asset.MsgIssueToken.ValidateBasic issueNonMintable500 = none := by
  refine ⟨?_, ?_, rfl⟩
  · intro msg h0 hm
    unfold asset.MsgIssueToken.ValidateBasic
    simp [asset.normalizeIssueToken, asset.fillMaxSupply, h0, hm, asset.MaximumAssetMaxSupply]
  · intro msg h0 hm
    unfold asset.MsgIssueToken.ValidateBasic
    by_cases hI : msg.InitialSupply = 0 <;>
      simp [asset.normalizeIssueToken, asset.fillMaxSupply, h0, hm, hI]

/-- Witness for `C6_maxSupply_default_fill` at concrete requests. -/
theorem C6_maxSupply_default_fill_witness :
    asset.MsgIssueToken.ValidateBasic issueMintable0 =
      asset.MsgIssueToken.ValidateBasic
        { issueMintable0 with MaxSupply := asset.MaximumAssetMaxSupply } ∧
    asset.MsgIssueToken.ValidateBasic issueNonMintable500 =
      asset.MsgIssueToken.ValidateBasic
        { issueNonMintable500 with MaxSupply := issueNonMintable500.InitialSupply } :=
  ⟨C6_maxSupply_default_fill.1 issueMintable0 rfl rfl,
   C6_maxSupply_default_fill.2.1 issueNonMintable500 rfl rfl⟩

theorem commonChecks_ne_alias (m : asset.MsgIssueToken)
    (h1 : 3 ≤ gostr.byteLen m.SymbolMinAlias)
    (h2 : gostr.byteLen m.SymbolMinAlias ≤ 10)
    (h3 : asset.IsAlphaNumeric m.SymbolMinAlias = true) :
    asset.issueTokenCommonChecks m ≠ some .InvalidAssetSymbolMinAlias := by
  unfold asset.issueTokenCommonChecks
  split_ifs with hf hn hs hnat hsa hal hini hmax hdec <;>
    simp_all [asset.MinimumAssetSymbolMinAliasSize, asset.MaximumAssetSymbolMinAliasSize,
      asset.MinimumAssetSymbolSize, asset.MaximumAssetSymbolSize]
  omega

/-- Claim C7.  In the symbolMinAlias check the begin-with-letter test is
applied to the primary symbol (not the alias), so a request whose
normalized alias is alphanumeric with byte length in [3, 10] is never
rejected with `InvalidAssetSymbolMinAlias` — in particular not when the
alias begins with a digit. -/
theorem C7_alias_begin_letter_checked_on_symbol (msg : asset.MsgIssueToken)
    (h1 : 3 ≤ gostr.byteLen (gostr.toLowerStr (gostr.trimSpace msg.SymbolMinAlias)))
    (h2 : gostr.byteLen (gostr.toLowerStr (gostr.trimSpace msg.SymbolMinAlias)) ≤ 10)
    (h3 : asset.IsAlphaNumeric (gostr.toLowerStr (gostr.trimSpace msg.SymbolMinAlias)) = true) :
    asset.MsgIssueToken.ValidateBasic msg ≠ some .InvalidAssetSymbolMinAlias := by
  unfold asset.MsgIssueToken.ValidateBasic
  dsimp only
  have halias : (asset.fillMaxSupply (asset.normalizeIssueToken msg)).SymbolMinAlias =
      gostr.toLowerStr (gostr.trimSpace msg.SymbolMinAlias) := by
    unfold asset.fillMaxSupply asset.normalizeIssueToken
    split_ifs <;> rfl
  cases hsrc : (asset.fillMaxSupply (asset.normalizeIssueToken msg)).Source with
  | NATIVE =>
    dsimp only
    split_ifs with hown
    · simp
    · exact commonChecks_ne_alias _ (by simpa [halias] using h1)
        (by simpa [halias] using h2) (by simpa [halias] using h3)
  | EXTERNAL => simp
  | GATEWAY =>
    dsimp only
    split_ifs with hmon
    · simp
    · exact commonChecks_ne_alias _ (by simpa [halias] using h1)
        (by simpa [halias] using h2) (by simpa [halias] using h3)
  | UNRECOGNIZED code => simp

/-- Witness for `C7_alias_begin_letter_checked_on_symbol`: the alias
"123" begins with a digit and is not rejected as an invalid alias (the
request is in fact accepted). -/
theorem C7_alias_begin_letter_checked_on_symbol_witness :
    asset.MsgIssueToken.ValidateBasic issueAliasDigit ≠
      some .InvalidAssetSymbolMinAlias :=
  C7_alias_begin_letter_checked_on_symbol issueAliasDigit (by decide) (by decide) (by decide)

/-! ## Helper lemmas: decimal digits, formatting and parsing -/

namespace sdk

theorem digitChar_isDigit {d : Nat} (h : d < 10) : (Nat.digitChar d).isDigit = true := by
  interval_cases d <;> decide

theorem digitVal_digitChar {d : Nat} (h : d < 10) : digitVal (Nat.digitChar d) = d := by
  interval_cases d <;> decide

theorem digitsVal_append_singleton (ds : List Char) (c : Char) :
    digitsVal (ds ++ [c]) = digitsVal ds * 10 + digitVal c := by
  simp [digitsVal, List.foldl_append]

theorem digitsVal_replicate_zero (m : Nat) (ds : List Char) :
    digitsVal (List.replicate m '0' ++ ds) = digitsVal ds := by
  have hz : ∀ m, List.foldl (fun a c => a * 10 + digitVal c) 0 (List.replicate m '0') = 0 := by
    intro m
    induction m with
    | zero => rfl
    | succ p ih => simpa [List.replicate_succ, digitVal] using ih
  simp [digitsVal, List.foldl_append, hz]

theorem natDigitsAux_spec : ∀ fuel n, n < fuel →
    (∀ c ∈ natDigitsAux fuel n, c.isDigit = true) ∧
    natDigitsAux fuel n ≠ [] ∧
    digitsVal (natDigitsAux fuel n) = n := by
  intro fuel
  induction fuel with
  | zero => intro n h; omega
  | succ f ih =>
    intro n hn
    unfold natDigitsAux
    by_cases h10 : n < 10
    · rw [if_pos h10]
      refine ⟨?_, by simp, ?_⟩
      · intro c hc
        rw [List.mem_singleton] at hc
        subst hc
        exact digitChar_isDigit h10
      · simp [digitsVal, digitVal_digitChar h10]
    · rw [if_neg h10]
      have hlt : n / 10 < n := Nat.div_lt_self (by omega) (by omega)
      obtain ⟨ihd, ihne, ihval⟩ := ih (n / 10) (by omega)
      refine ⟨?_, by simp, ?_⟩
      · intro c hc
        rw [List.mem_append, List.mem_singleton] at hc
        rcases hc with hc | hc
        · exact ihd c hc
        · subst hc
          exact digitChar_isDigit (Nat.mod_lt _ (by omega))
      · rw [digitsVal_append_singleton, ihval, digitVal_digitChar (Nat.mod_lt _ (by omega))]
        omega

theorem natDigits_isDigit (n : Nat) : ∀ c ∈ natDigits n, c.isDigit = true :=
  (natDigitsAux_spec (n + 1) n (by omega)).1

theorem natDigits_ne_nil (n : Nat) : natDigits n ≠ [] :=
  (natDigitsAux_spec (n + 1) n (by omega)).2.1

theorem digitsVal_natDigits (n : Nat) : digitsVal (natDigits n) = n :=
  (natDigitsAux_spec (n + 1) n (by omega)).2.2

theorem natDigitsAux_length : ∀ fuel n k, n < fuel → n < 10 ^ k → 1 ≤ k →
    (natDigitsAux fuel n).length ≤ k := by
  intro fuel
  induction fuel with
  | zero => intro n k h; omega
  | succ f ih =>
    intro n k hn hpow hk
    unfold natDigitsAux
    by_cases h10 : n < 10
    · rw [if_pos h10]
      simpa using hk
    · rw [if_neg h10]
      obtain ⟨kk, rfl⟩ : ∃ kk, k = kk + 1 := ⟨k - 1, by omega⟩
      have hkk : 1 ≤ kk := by
        by_contra hkk
        have : kk = 0 := by omega
        subst this
        simp at hpow
        omega
      have hlt : n / 10 < n := Nat.div_lt_self (by omega) (by omega)
      have hdiv : n / 10 < 10 ^ kk := by
        rw [Nat.div_lt_iff_lt_mul (by omega)]
        calc n < 10 ^ (kk + 1) := hpow
        _ = 10 ^ kk * 10 := by rw [pow_succ]
      have := ih (n / 10) kk (by omega) hdiv hkk
      simp only [List.length_append, List.length_singleton]
      omega

theorem natDigits_length_le (n k : Nat) (hpow : n < 10 ^ k) (hk : 1 ≤ k) :
    (natDigits n).length ≤ k :=
  natDigitsAux_length (n + 1) n k (by omega) hpow hk

theorem fracDigits_isDigit (m k : Nat) : ∀ c ∈ fracDigits m k, c.isDigit = true := by
  intro c hc
  rw [fracDigits, List.mem_append] at hc
  rcases hc with hc | hc
  · rw [List.eq_of_mem_replicate hc]
    decide
  · exact natDigits_isDigit m c hc

theorem fracDigits_ne_nil (m k : Nat) : fracDigits m k ≠ [] := by
  intro h
  exact natDigits_ne_nil m ((List.append_eq_nil.mp h).2)

theorem fracDigits_length (m k : Nat) (hm : m < 10 ^ k) (hk : 1 ≤ k) :
    (fracDigits m k).length = k := by
  have := natDigits_length_le m k hm hk
  simp only [fracDigits, List.length_append, List.length_replicate]
  omega

theorem digitsVal_fracDigits (m k : Nat) : digitsVal (fracDigits m k) = m := by
  rw [fracDigits, digitsVal_replicate_zero, digitsVal_natDigits]

theorem stripTrailingZeros_value : ∀ k n,
    n * 10 ^ (stripTrailingZeros n k).2 = (stripTrailingZeros n k).1 * 10 ^ k := by
  intro k
  induction k with
  | zero => intro n; rfl
  | succ p ih =>
    intro n
    unfold stripTrailingZeros
    by_cases h : n % 10 = 0
    · rw [if_pos (by simpa using h)]
      have hdiv : 10 * (n / 10) = n := by omega
      calc n * 10 ^ (stripTrailingZeros (n / 10) p).2
          = 10 * ((n / 10) * 10 ^ (stripTrailingZeros (n / 10) p).2) := by
            rw [← Nat.mul_assoc, hdiv]
        _ = 10 * ((stripTrailingZeros (n / 10) p).1 * 10 ^ p) := by rw [ih]
        _ = (stripTrailingZeros (n / 10) p).1 * 10 ^ (p + 1) := by ring
    · rw [if_neg (by simpa using h)]

theorem takeWhile_digits_append (xs ys : List Char)
    (hxs : ∀ c ∈ xs, c.isDigit = true)
    (hys : ∀ c t, ys = c :: t → c.isDigit = false) :
    (xs ++ ys).takeWhile Char.isDigit = xs ∧
    (xs ++ ys).dropWhile Char.isDigit = ys := by
  have htw : ys.takeWhile Char.isDigit = [] := by
    cases hy : ys with
    | nil => rfl
    | cons c t => rw [List.takeWhile_cons_of_neg (by simp [hys c t hy])]
  have hdw : ys.dropWhile Char.isDigit = ys := by
    cases hy : ys with
    | nil => rfl
    | cons c t => rw [List.dropWhile_cons_of_neg (by simp [hys c t hy])]
  constructor
  · rw [List.takeWhile_append_of_pos (by simpa using hxs), htw, List.append_nil]
  · rw [List.dropWhile_append_of_pos (by simpa using hxs), hdw]

theorem data_strAppend (a b : String) : (a ++ b).data = a.data ++ b.data := rfl

theorem mk_data_eq (s : String) : String.mk s.data = s := rfl

theorem parseAmountChars_format_append (N K : Nat) (rest : List Char)
    (hrest : denomLeadOk rest = true) :
    parseAmountChars (formatDecChars N K ++ rest) =
      some ((stripTrailingZeros N K).1, (stripTrailingZeros N K).2, rest) := by
  rcases hr : rest with _ | ⟨c, t⟩
  · rw [hr] at hrest
    simp [denomLeadOk] at hrest
  rw [hr] at hrest
  simp only [denomLeadOk, Bool.and_eq_true, Bool.not_eq_true', bne_iff_ne, ne_eq] at hrest
  obtain ⟨hc1, hc2⟩ := hrest
  have hys : ∀ c' t', (c :: t : List Char) = c' :: t' → c'.isDigit = false := by
    intro c' t' h
    cases h
    exact hc1
  rcases hk : stripTrailingZeros N K with ⟨n', k'⟩
  unfold formatDecChars
  rw [hk]
  dsimp only
  cases k' with
  | zero =>
    rw [if_pos (show ((0 : Nat) == 0) = true from rfl)]
    obtain ⟨htw, hdw⟩ :=
      takeWhile_digits_append (natDigits n') (c :: t) (natDigits_isDigit n') hys
    unfold parseAmountChars
    dsimp only
    rw [htw, hdw]
    rw [if_neg (by simpa using natDigits_ne_nil n')]
    dsimp only
    rw [if_neg hc2, digitsVal_natDigits]
  | succ kk =>
    rw [if_neg (by simp)]
    have hmod : n' % 10 ^ (kk + 1) < 10 ^ (kk + 1) :=
      Nat.mod_lt _ (pow_pos (by omega) _)
    have hlen : (fracDigits (n' % 10 ^ (kk + 1)) (kk + 1)).length = kk + 1 :=
      fracDigits_length _ _ hmod (by omega)
    simp only [List.append_assoc, List.cons_append]
    obtain ⟨htw1, hdw1⟩ :=
      takeWhile_digits_append (natDigits (n' / 10 ^ (kk + 1)))
        ('.' :: (fracDigits (n' % 10 ^ (kk + 1)) (kk + 1) ++ c :: t))
        (natDigits_isDigit _) (by intro c' t' h; cases h; decide)
    obtain ⟨htw2, hdw2⟩ :=
      takeWhile_digits_append (fracDigits (n' % 10 ^ (kk + 1)) (kk + 1)) (c :: t)
        (fracDigits_isDigit _ _) hys
    unfold parseAmountChars
    dsimp only
    rw [htw1, hdw1]
    rw [if_neg (by simpa using natDigits_ne_nil (n' / 10 ^ (kk + 1)))]
    dsimp only
    rw [if_pos (show ('.' : Char) = '.' from rfl)]
    rw [htw2, hdw2]
    rw [if_neg (by simp [List.isEmpty_iff, fracDigits_ne_nil])]
    rw [hlen, digitsVal_natDigits, digitsVal_fracDigits]
    simp only [Option.some.injEq, Prod.mk.injEq, and_true, true_and]
    exact Nat.div_add_mod' n' (10 ^ (kk + 1))

end sdk

theorem convert_arithmetic_path (ct : types.CoinType) (s dest : String)
    (n k : Nat) (d : List Char)
    (hp : sdk.parseAmountChars s.data = some (n, k, d))
    (du : types.Unit) (hdu : ct.GetUnit dest = .ok du)
    (su : types.Unit) (hsu : ct.GetUnit (String.mk d) = .ok su)
    (hne : su.Denom ≠ dest) :
    ct.Convert s dest =
      .ok (sdk.formatDec (n * 10 ^ du.Decimal) (k + su.Decimal) ++ du.Denom) := by
  unfold types.CoinType.Convert sdk.ParseCoin
  rw [hp]
  dsimp only
  rw [hdu]
  dsimp only
  rw [hsu]
  dsimp only
  rw [if_neg (by simp [hne])]
  rfl

/-- Claim C3, amended.  Converting an amount from unit `U1` to unit
`U2` of the same coin type and back preserves the parsed value exactly:
both conversions succeed and the final amount `n2 / 10 ^ k2` equals the
original `n / 10 ^ k` as an exact rational (`n2 * 10 ^ k = n * 10 ^ k2`).
The hypotheses say: `A` parses with a source denomination resolving to
`U1`; both registered denominations resolve to their own units, differ
from each other, and start with a character that is neither a digit nor
a dot. -/
theorem C3_convert_roundtrip_exact_value (ct : types.CoinType) (A : String)
    (u1 u2 : types.Unit) (n k : Nat) (d : List Char)
    (hA : sdk.parseAmountChars A.data = some (n, k, d))
    (hsrc : ct.GetUnit (String.mk d) = .ok u1)
    (hu2 : ct.GetUnit u2.Denom = .ok u2)
    (hu1 : ct.GetUnit u1.Denom = .ok u1)
    (hne : u1.Denom ≠ u2.Denom)
    (hd2 : sdk.denomLeadOk u2.Denom.data = true)
    (hd1 : sdk.denomLeadOk u1.Denom.data = true) :
    ∃ B C n1 k1 n2 k2,
      ct.Convert A u2.Denom = .ok B ∧
      sdk.parseAmountChars B.data = some (n1, k1, u2.Denom.data) ∧
      ct.Convert B u1.Denom = .ok C ∧
      sdk.parseAmountChars C.data = some (n2, k2, u1.Denom.data) ∧
      n2 * 10 ^ k = n * 10 ^ k2 := by
  rcases hs1 : sdk.stripTrailingZeros (n * 10 ^ u2.Decimal) (k + u1.Decimal) with ⟨n1, k1⟩
  have hval1 := sdk.stripTrailingZeros_value (k + u1.Decimal) (n * 10 ^ u2.Decimal)
  rw [hs1] at hval1
  have hconv1 := convert_arithmetic_path ct A u2.Denom n k d hA u2 hu2 u1 hsrc hne
  have hBdata : (sdk.formatDec (n * 10 ^ u2.Decimal) (k + u1.Decimal) ++ u2.Denom).data =
      sdk.formatDecChars (n * 10 ^ u2.Decimal) (k + u1.Decimal) ++ u2.Denom.data := rfl
  have hparseB : sdk.parseAmountChars
      (sdk.formatDec (n * 10 ^ u2.Decimal) (k + u1.Decimal) ++ u2.Denom).data =
      some (n1, k1, u2.Denom.data) := by
    rw [hBdata, sdk.parseAmountChars_format_append _ _ _ hd2, hs1]
  rcases hs2 : sdk.stripTrailingZeros (n1 * 10 ^ u1.Decimal) (k1 + u2.Decimal) with ⟨n2, k2⟩
  have hval2 := sdk.stripTrailingZeros_value (k1 + u2.Decimal) (n1 * 10 ^ u1.Decimal)
  rw [hs2] at hval2
  have hsu2 : ct.GetUnit (String.mk u2.Denom.data) = .ok u2 := by
    rw [sdk.mk_data_eq]
    exact hu2
  have hconv2 := convert_arithmetic_path ct
    (sdk.formatDec (n * 10 ^ u2.Decimal) (k + u1.Decimal) ++ u2.Denom) u1.Denom
    n1 k1 u2.Denom.data hparseB u1 hu1 u2 hsu2 (fun h => hne h.symm)
  have hparseC : sdk.parseAmountChars
      (sdk.formatDec (n1 * 10 ^ u1.Decimal) (k1 + u2.Decimal) ++ u1.Denom).data =
      some (n2, k2, u1.Denom.data) := by
    rw [show (sdk.formatDec (n1 * 10 ^ u1.Decimal) (k1 + u2.Decimal) ++ u1.Denom).data =
        sdk.formatDecChars (n1 * 10 ^ u1.Decimal) (k1 + u2.Decimal) ++ u1.Denom.data from rfl,
      sdk.parseAmountChars_format_append _ _ _ hd1, hs2]
  refine ⟨_, _, n1, k1, n2, k2, hconv1, hparseB, hconv2, hparseC, ?_⟩
  have hpos : 0 < 10 ^ (k1 + u2.Decimal) := pow_pos (by omega) _
  have key : (n2 * 10 ^ k) * 10 ^ (k1 + u2.Decimal) =
      (n * 10 ^ k2) * 10 ^ (k1 + u2.Decimal) := by
    calc (n2 * 10 ^ k) * 10 ^ (k1 + u2.Decimal)
        = (n2 * 10 ^ (k1 + u2.Decimal)) * 10 ^ k := by ring
      _ = (n1 * 10 ^ u1.Decimal * 10 ^ k2) * 10 ^ k := by rw [← hval2]
      _ = (n1 * 10 ^ (k + u1.Decimal)) * 10 ^ k2 := by rw [pow_add]; ring
      _ = (n * 10 ^ u2.Decimal * 10 ^ k1) * 10 ^ k2 := by rw [← hval1]
      _ = (n * 10 ^ k2) * 10 ^ (k1 + u2.Decimal) := by rw [pow_add]; ring
  exact Nat.eq_of_mul_eq_mul_right hpos key

/-- Witness for `C3_convert_roundtrip_exact_value`: "1.50iris" to
iris-milli and back; the final value 15/10 equals the original
150/100. -/
theorem C3_convert_roundtrip_exact_value_witness :
    ∃ B C n1 k1 n2 k2,
      types.IrisCoinType.Convert "1.50iris" "iris-milli" = .ok B ∧
      sdk.parseAmountChars B.data = some (n1, k1, "iris-milli".data) ∧
      types.IrisCoinType.Convert B "iris" = .ok C ∧
      sdk.parseAmountChars C.data = some (n2, k2, "iris".data) ∧
      n2 * 10 ^ 2 = 150 * 10 ^ k2 :=
  C3_convert_roundtrip_exact_value types.IrisCoinType "1.50iris" ⟨"iris", 0⟩
    ⟨"iris-milli", 3⟩ 150 2 "iris".data rfl rfl rfl rfl (by decide) (by decide) (by decide)
